import Mathlib

/-!
Verification of the schema-reconciliation and normalization pipeline of the
payment/proposal dashboard (`src/app.py`).

The embedding is a shallow model of the pandas-based code:

* a spreadsheet cell is a `Cell` (missing value, string, integer, float,
  or — after processing — a date-or-NaT value); floats are modelled as exact
  rationals (all the amounts involved are exact decimals);
* a `Frame` models a `pandas.DataFrame` column-store: a row count plus an
  ordered association list from column label to the list of column values;
* `clean_colname`, `safe_num`, `parse_date`, the alias tables, the column
  reconciliation loop, `process_raw_data` and `get_proposal_insights` are
  translated statement by statement from `src/app.py`.

Modelling notes (divergences are cosmetic and marked where they occur):
Python exceptions never escape the translated functions (every `try/except`
returns a default), so the model is total; `datetime.now().year` is passed
in as an explicit parameter; case conversion is ASCII (the Python functions
are full Unicode, but every column label and category value involved is
ASCII, and non-ASCII characters are stripped by `clean_colname` either way).
-/

/- The Batteries `Rat` arithmetic is `@[irreducible]`, which blocks `decide`
on concrete rational computations; restore the default reducibility for this
file so that witnesses evaluate. -/
attribute [local semireducible] Rat.mul Rat.add Rat.sub Rat.inv Rat.ofScientific

/-- Strings are modelled as explicit character lists. -/
abbrev Str := List Char

/-- ASCII whitespace, as recognized by Python's `str.strip()` and `float()`
(the Unicode whitespace cases are not modelled; no data here contains them). -/
def isWs (c : Char) : Bool :=
  c = ' ' || c = '\t' || c = '\n' || c = '\r' || c = '\x0b' || c = '\x0c'

/-- Python `str.strip()`: drop whitespace from both ends. -/
def pyStrip (s : Str) : Str :=
  ((s.dropWhile isWs).reverse.dropWhile isWs).reverse

/-- Digits of a natural number, most significant first (via `Nat.toDigits`). -/
def natRepr (n : ℕ) : Str :=
  Nat.toDigits 10 n

/-- Python `str()` of an integer. -/
def intRepr (z : ℤ) : Str :=
  if z < 0 then '-' :: natRepr z.natAbs else natRepr z.natAbs

/-- Value of a digit string (the string is assumed to be all digits). -/
def natVal (s : Str) : ℕ :=
  s.foldl (fun n c => 10 * n + (c.toNat - 48)) 0

/-- A digit-group character of a Python float literal: a digit or an
underscore separator. -/
def digitOrSep (c : Char) : Bool :=
  c.isDigit || c = '_'

/-- Helper for `goodRun`: scan a run whose first character is a digit and
demand that every underscore be followed by a digit. -/
def goodRunAux : Str → Bool
  | [] => true
  | '_' :: c :: rest => c.isDigit && goodRunAux (c :: rest)
  | ['_'] => false
  | _ :: rest => goodRunAux rest

/-- Validity of a run of digits and underscores inside a Python float
literal: every underscore must sit between two digits (no leading or
trailing underscore, no doubled underscore). The empty run is valid. -/
def goodRun : Str → Bool
  | [] => true
  | '_' :: _ => false
  | s => goodRunAux s

/-- Mantissa-or-exponent sign of a Python float literal. -/
def readSign : Str → ℤ × Str
  | '-' :: r => (-1, r)
  | '+' :: r => (1, r)
  | s => (1, s)

/-- Exponent-and-end part of a Python float literal: after the mantissa `m`,
accept the empty string or `e`/`E`, an optional sign, and a digit run. -/
def parseExpEnd (m : ℚ) : Str → Option ℚ
  | [] => some m
  | e :: rest =>
    if e = 'e' || e = 'E' then
      let (es, r2) := readSign rest
      let erun := r2.takeWhile digitOrSep
      let r3 := r2.dropWhile digitOrSep
      if !goodRun erun then none
      else
        let eds := erun.filter (fun c => c ≠ '_')
        if eds = [] then none
        else if r3 = [] then some (m * (10 : ℚ) ^ (es * (natVal eds : ℤ))) else none
    else none

/-- Unsigned part of a Python float literal: `digits [. digits] [exp]` or
`. digits [exp]`, with underscore separators allowed inside digit runs. -/
def parseUnsigned (u : Str) : Option ℚ :=
  let irun := u.takeWhile digitOrSep
  let r1 := u.dropWhile digitOrSep
  if !goodRun irun then none
  else
    let ids := irun.filter (fun c => c ≠ '_')
    match r1 with
    | '.' :: r2 =>
      let frun := r2.takeWhile digitOrSep
      let r3 := r2.dropWhile digitOrSep
      if !goodRun frun then none
      else
        let fds := frun.filter (fun c => c ≠ '_')
        if ids = [] && fds = [] then none
        else parseExpEnd ((natVal ids : ℚ) + (natVal fds : ℚ) / (10 : ℚ) ^ fds.length) r3
    | _ => if ids = [] then none else parseExpEnd (natVal ids : ℚ) r1

/-- Python `float(s)`: optional surrounding whitespace, optional sign, then a
decimal literal with optional fraction and exponent; `none` models
`ValueError`. Not modelled: the `inf`/`nan` literals (not representable in
the exact-rational value model) and non-ASCII digits. -/
def floatOfStr (s : Str) : Option ℚ :=
  match pyStrip s with
  | [] => none
  | t =>
    let (sg, u) := readSign t
    (parseUnsigned u).map (fun q => (sg : ℚ) * q)

/-- The character class of the cleaning regex `re.sub(r'[₹$,\\s]', '', ·)` in
`safe_num` (`src/app.py:76`). The raw-string pattern contains an escaped
backslash followed by `s`, so the class is the five literal characters
Rupee sign, dollar sign, comma, backslash and lowercase `s` — it does NOT
contain the whitespace class `\s`. -/
def inCurrencyClass (c : Char) : Bool :=
  c = '₹' || c = '$' || c = ',' || c = '\\' || c = 's'

/-- The cleaning substitution of `safe_num`: delete every character of the
regex class `[₹$,\\s]`. -/
def reSub (s : Str) : Str :=
  s.filter (fun c => !inCurrencyClass c)

/-- Does the string start with the given character (Python `startswith`)? -/
def startsWithCh (c : Char) : Str → Bool
  | [] => false
  | a :: _ => a = c

/-- Does the string end with the given character (Python `endswith`)? -/
def endsWithCh (c : Char) (s : Str) : Bool :=
  match s.getLast? with
  | some a => a = c
  | none => false

/-- The accounting-negative step of `safe_num` (`src/app.py:79-80`): a value
wholly wrapped in parentheses loses them and gains a leading minus sign. -/
def parenNeg (s : Str) : Str :=
  if startsWithCh '(' s && endsWithCh ')' s then '-' :: (s.drop 1).dropLast else s

/-- The string pipeline of `safe_num` (`src/app.py:66-86`), after the
null/empty checks: strip, delete the currency class, apply the
parenthesized-negative rule, and parse with `float`, every failure
(including an empty remainder) collapsing to `0.0`. -/
def safe_numStr (s : Str) : ℚ :=
  if pyStrip s = [] then 0
  else
    let vclean := reSub (pyStrip s)
    let v2 := parenNeg vclean
    if v2 = [] then 0 else (floatOfStr v2).getD 0

/-- A calendar date (pandas `Timestamp` at day resolution). -/
structure PDate where
  y : ℤ
  m : ℕ
  d : ℕ
deriving DecidableEq, Repr

/-- A spreadsheet/DataFrame cell. `vNone` is a missing value (`None`/`NaN`),
`vStr`/`vInt` are raw cell payloads, `vNum` is a float produced by the
pipeline (modelled as an exact rational; float `NaN` is not modelled),
`vDate` is a `parse_date` result, with `vDate none` playing `NaT`. -/
inductive Cell where
  | vNone : Cell
  | vStr : Str → Cell
  | vInt : ℤ → Cell
  | vNum : ℚ → Cell
  | vDate : Option PDate → Cell
deriving DecidableEq, Repr

/-- Is the cell a missing value in the `pandas.isna` sense (`None`, `NaN`,
`NaT`)? -/
def isNaCell : Cell → Bool
  | Cell.vNone => true
  | Cell.vDate none => true
  | _ => false

/-- Is the cell a value a raw fetched row-set can contain (strings, integers
and blanks, as produced by `get_all_records` / CSV reading)? -/
def isRawCell : Cell → Bool
  | Cell.vNone => true
  | Cell.vStr _ => true
  | Cell.vInt _ => true
  | _ => false

/-- Decimal representation of a rational whose denominator divides a power
of ten, i.e. of an exact decimal: this matches Python's `str()` on the
floats the pipeline produces (shortest round-trip representation of a
decimal amount). For other denominators — unreachable for pipeline values —
the result is a placeholder. -/
def ratRepr (q : ℚ) : Str :=
  if q.den = 1 then intRepr q.num ++ ('.' :: ['0'])
  else
    match (List.range 40).find? (fun k => 10 ^ k % q.den = 0) with
    | some k =>
      let total := natRepr (q.num.natAbs * (10 ^ k / q.den))
      let padded := List.replicate (k + 1 - total.length) '0' ++ total
      let digits := padded.take (padded.length - k) ++ '.' :: padded.drop (padded.length - k)
      if q.num < 0 then '-' :: digits else digits
    | none => intRepr q.num ++ '/' :: natRepr q.den

/-- Left-pad a digit string with zeros to the given width. -/
def padZeros (w : ℕ) (s : Str) : Str :=
  List.replicate (w - s.length) '0' ++ s

/-- Python `str()` of a `Timestamp` (midnight, day resolution). -/
def dateRepr (d : PDate) : Str :=
  intRepr d.y ++ '-' :: padZeros 2 (natRepr d.m) ++ '-' :: padZeros 2 (natRepr d.d)
    ++ (" 00:00:00".toList)

/-- Python `str()` of a cell value. `vNum` uses the exact-decimal
representation of `ratRepr`. -/
def pyStr : Cell → Str
  | Cell.vNone => ("None".toList)
  | Cell.vStr s => s
  | Cell.vInt z => intRepr z
  | Cell.vNum q => ratRepr q
  | Cell.vDate none => ("NaT".toList)
  | Cell.vDate (some d) => dateRepr d

/-- `safe_num` (`src/app.py:66-86`): the enhanced number conversion.
`pd.isna(v)` catches missing values; the `v == ""`/`str(v).strip() == ""`
checks and the rest of the body are the string pipeline applied to
`str(v)`. Total by construction — the surrounding `try/except` turns every
failure into `0.0`. -/
def safe_num (c : Cell) : ℚ :=
  if isNaCell c then 0 else safe_numStr (pyStr c)

/-- Split a string on the date separators `/` and `-`. -/
def splitSepAux : Str → Str → List Str
  | [], acc => [acc.reverse]
  | c :: cs, acc =>
    if c = '/' || c = '-' then acc.reverse :: splitSepAux cs []
    else splitSepAux cs (c :: acc)

/-- Split a string on `/` and `-`. -/
def splitSep (s : Str) : List Str :=
  splitSepAux s []

/-- Parse a numeric `D/M/YYYY`-style date, day first, falling back to
month-first when the first field cannot be a day — the behaviour of
`pd.to_datetime(·, dayfirst=True)` on numeric dates. -/
def parseDMY (s : Str) : Option PDate :=
  match splitSep s with
  | [a, b, c] =>
    if a ≠ [] && b ≠ [] && c ≠ [] && a.all Char.isDigit && b.all Char.isDigit
        && c.all Char.isDigit then
      let x := natVal a
      let y := natVal b
      let z := natVal c
      if 1 ≤ x && x ≤ 31 && 1 ≤ y && y ≤ 12 then some ⟨(z : ℤ), y, x⟩
      else if 1 ≤ y && y ≤ 31 && 1 ≤ x && x ≤ 12 then some ⟨(z : ℤ), x, y⟩
      else none
    else none
  | _ => none

/-- `parse_date` (`src/app.py:88-92`): `pd.to_datetime(v, dayfirst=True,
errors="coerce")`, `none` playing `NaT`. The model covers numeric
day-first dates with `/` or `-` separators and four-digit years; pandas
accepts further formats (month names, epoch numbers, two-digit years) that
no claim depends on — those coerce to `NaT` here. -/
def parse_date : Cell → Option PDate
  | Cell.vStr s => parseDMY (pyStrip s)
  | Cell.vDate d => d
  | _ => none

/-- `clean_colname` (`src/app.py:60-64`): strip, lower-case, delete every
character outside `[0-9a-zA-Z_ ]`, turn spaces into underscores, and map an
empty result to the placeholder `"col"`. -/
def clean_colname (x : Str) : Str :=
  let y := (pyStrip x).map Char.toLower
  let z := y.filter (fun c => c.isDigit || c.isAlpha || c = '_' || c = ' ')
  let w := z.map (fun c => if c = ' ' then '_' else c)
  if w = [] then ("col".toList) else w

/-- Python `str.title()` on ASCII: the first letter of every letter run is
upper-cased, the rest lower-cased. -/
def pyTitleAux : Bool → Str → Str
  | _, [] => []
  | prevAlpha, c :: cs =>
    (if c.isAlpha then (if prevAlpha then c.toLower else c.toUpper) else c)
      :: pyTitleAux c.isAlpha cs

/-- Python `str.title()` (ASCII model). -/
def pyTitle (s : Str) : Str :=
  pyTitleAux false s

/-- A DataFrame: a row count and an ordered list of labelled columns. A
well-formed frame has every column of length `nrows`; the operations below
never rely on that. -/
structure Frame where
  nrows : ℕ
  cols : List (Str × List Cell)
deriving DecidableEq, Repr

/-- Look up the (first) column with the given label. -/
def lookupCol : List (Str × List Cell) → Str → Option (List Cell)
  | [], _ => none
  | (n, vs) :: rest, m => if n = m then some vs else lookupCol rest m

/-- Column values of a frame under a label. -/
def Frame.getCol (f : Frame) (n : Str) : Option (List Cell) :=
  lookupCol f.cols n

/-- `label in df.columns`. -/
def Frame.hasCol (f : Frame) (n : Str) : Bool :=
  (f.getCol n).isSome

/-- Column values under a label, defaulting to the empty column. -/
def Frame.colD (f : Frame) (n : Str) : List Cell :=
  (f.getCol n).getD []

/-- `df[n] = vs`: replace the column labelled `n`, or append it. -/
def setColAux : List (Str × List Cell) → Str → List Cell → List (Str × List Cell)
  | [], n, vs => [(n, vs)]
  | (m, ws) :: rest, n, vs =>
    if m = n then (n, vs) :: rest else (m, ws) :: setColAux rest n vs

/-- `df[n] = vs` on a frame. -/
def Frame.setCol (f : Frame) (n : Str) (vs : List Cell) : Frame :=
  ⟨f.nrows, setColAux f.cols n vs⟩

/-- `df.rename(columns={old: new})`: relabel every column labelled `old`. -/
def Frame.renameCol (f : Frame) (old new : Str) : Frame :=
  ⟨f.nrows, f.cols.map (fun p => if p.1 = old then (new, p.2) else p)⟩

/-- `df.columns = [clean_colname(c) for c in df.columns]`
(`src/app.py:342`). -/
def cleanCols (f : Frame) : Frame :=
  ⟨f.nrows, f.cols.map (fun p => (clean_colname p.1, p.2))⟩

/-- The inner alias scan of the reconciliation loop (`src/app.py:367-373`):
for one canonical name, rename the first alias that is a column — provided
the canonical name is not already a column — and stop. -/
def applyAliases (std : Str) : List Str → Frame → Frame
  | [], f => f
  | a :: as, f =>
    if f.hasCol a && !f.hasCol std then f.renameCol a std
    else applyAliases std as f

/-- The outer reconciliation loop: process the alias table in declaration
order. -/
def applyMapping : List (Str × List Str) → Frame → Frame
  | [], f => f
  | (std, als) :: rest, f => applyMapping rest (applyAliases std als f)

/-- The payment alias table `column_mapping` of `process_raw_data`
(`src/app.py:353-363`). -/
def paymentMapping : List (Str × List Str) :=
  [ (("unit_name".toList),
      [("unit_name".toList), ("unit".toList), ("unitname".toList), ("name".toList),
       ("client".toList), ("customer".toList)]),
    (("work_order_no".toList),
      [("work_order_no".toList), ("work_order".toList), ("wo_no".toList),
       ("order_no".toList), ("workorder".toList), ("wo_number".toList)]),
    (("order_amount".toList),
      [("order_amount".toList), ("order".toList), ("amount".toList),
       ("order_amt".toList), ("initial_amount".toList), ("quoted_amount".toList)]),
    (("final_amount".toList),
      [("final_amount".toList), ("final".toList), ("final_amt".toList),
       ("total_amount".toList), ("grand_total".toList), ("invoice_amount".toList)]),
    (("payment_received".toList),
      [("payment_received".toList), ("received".toList), ("paid".toList),
       ("payment_received".toList), ("amount_received".toList), ("paid_amount".toList)]),
    (("pending_amount".toList),
      [("pending_amount".toList), ("pending".toList), ("balance".toList),
       ("due_amount".toList), ("outstanding".toList), ("remaining".toList)]),
    (("payment_mode".toList),
      [("payment_mode".toList), ("mode".toList), ("payment_type".toList),
       ("type".toList), ("payment_method".toList)]),
    (("work_status".toList),
      [("work_status".toList), ("status".toList), ("job_status".toList),
       ("project_status".toList), ("completion_status".toList)]),
    (("date".toList),
      [("date".toList), ("p_date".toList), ("payment_date".toList),
       ("transaction_date".toList), ("invoice_date".toList), ("entry_date".toList)]) ]

/-- The proposal alias table `column_mapping` of `process_proposal_data`
(`src/app.py:489-506`). -/
def proposalMapping : List (Str × List Str) :=
  [ (("s_no".toList),
      [("s_no".toList), ("sno".toList), ("sl_no".toList), ("serial_no".toList),
       ("serial_number".toList)]),
    (("year".toList), [("year".toList), ("yr".toList), ("year_".toList)]),
    (("date".toList),
      [("date".toList), ("proposal_date".toList), ("submission_date".toList)]),
    (("wo_date".toList),
      [("wo_date".toList), ("work_order_date".toList), ("order_date".toList)]),
    (("no".toList),
      [("no".toList), ("wo_no".toList), ("work_order_no".toList), ("order_no".toList)]),
    (("name".toList),
      [("name".toList), ("client_name".toList), ("company".toList),
       ("customer".toList), ("client".toList)]),
    (("industry_type".toList),
      [("industry_type".toList), ("industry".toList), ("business_type".toList),
       ("sector".toList)]),
    (("district".toList),
      [("district".toList), ("location".toList), ("city_district".toList),
       ("area".toList)]),
    (("scope_of_work".toList),
      [("scope_of_work".toList), ("scope".toList), ("work_scope".toList),
       ("description".toList)]),
    (("type".toList), [("type".toList), ("proposal_type".toList), ("category".toList)]),
    (("source".toList),
      [("source".toList), ("lead_source".toList), ("referral_source".toList)]),
    (("status".toList),
      [("status".toList), ("proposal_status".toList), ("current_status".toList)]),
    (("refrence_no".toList),
      [("refrence_no".toList), ("reference_no".toList), ("ref_no".toList),
       ("proposal_no".toList)]),
    (("contact_person".toList),
      [("contact_person".toList), ("contact".toList), ("person".toList),
       ("representative".toList)]),
    (("amount".toList),
      [("amount".toList), ("proposal_amount".toList), ("value".toList),
       ("quoted_amount".toList)]),
    (("present_status".toList),
      [("present_status".toList), ("current_status".toList), ("latest_status".toList),
       ("status_update".toList)]) ]

/-- Reconciliation step of the payment processor: clean the labels, then run
the alias table (`src/app.py:342,366-373`). -/
def reconcilePayment (f : Frame) : Frame :=
  applyMapping paymentMapping (cleanCols f)

/-- Ensure one required column exists, synthesizing an all-zero column when
it is absent (`src/app.py:377-380`; scalar `0.0` broadcasts over the
index). -/
def ensureCol (n : Str) (f : Frame) : Frame :=
  if f.hasCol n then f else f.setCol n (List.replicate f.nrows (Cell.vNum 0))

/-- The `required_cols` loop plus the separate `pending_amount` default
(`src/app.py:376-385`). -/
def ensureRequired (f : Frame) : Frame :=
  ensureCol ("pending_amount".toList)
    (ensureCol ("payment_received".toList)
      (ensureCol ("final_amount".toList)
        (ensureCol ("order_amount".toList) f)))

/-- `df[c] = df[c].apply(safe_num)` guarded by column presence
(`src/app.py:391-397`). -/
def numStep (n : Str) (f : Frame) : Frame :=
  if f.hasCol n then f.setCol n ((f.colD n).map (fun x => Cell.vNum (safe_num x))) else f

/-- The `numeric_cols` conversion loop, in its declared order. -/
def convertNumeric (f : Frame) : Frame :=
  numStep ("pending_amount".toList)
    (numStep ("payment_received".toList)
      (numStep ("final_amount".toList)
        (numStep ("order_amount".toList) f)))

/-- Elementwise subtraction of two numeric Series; a non-numeric operand
yields a missing value. -/
def subCell : Cell → Cell → Cell
  | Cell.vNum a, Cell.vNum b => Cell.vNum (a - b)
  | _, _ => Cell.vNone

/-- `Series.clip(lower=0)` on one element. -/
def clipCell : Cell → Cell
  | Cell.vNum q => Cell.vNum (max 0 q)
  | c => c

/-- The pending-amount derivation (`src/app.py:415-420`): when both operand
columns exist, overwrite `pending_amount` with
`(final_amount - payment_received).clip(lower=0)`. -/
def computePending (f : Frame) : Frame :=
  if f.hasCol ("final_amount".toList) && f.hasCol ("payment_received".toList) then
    f.setCol ("pending_amount".toList)
      ((List.zipWith subCell (f.colD ("final_amount".toList))
        (f.colD ("payment_received".toList))).map clipCell)
  else f

/-- One categorical cell of `work_status`/`payment_mode`:
`fillna('Unknown').astype(str).str.strip().str.title()`
(`src/app.py:437,443`). -/
def cleanStatus (c : Cell) : Cell :=
  if isNaCell c then Cell.vStr ("Unknown".toList)
  else Cell.vStr (pyTitle (pyStrip (pyStr c)))

/-- The `work_status` / `payment_mode` handling (`src/app.py:434-443`): an
absent column becomes the constant `"Unknown"`, a present one is cleaned
cell by cell. -/
def statusStep (n : Str) (f : Frame) : Frame :=
  if f.hasCol n then f.setCol n ((f.colD n).map cleanStatus)
  else f.setCol n (List.replicate f.nrows (Cell.vStr ("Unknown".toList)))

/-- The date-column search order of the payment processor
(`src/app.py:446`). -/
def dateColsOrder : List Str :=
  [("date".toList), ("p_date".toList), ("payment_date".toList)]

/-- First label of the list that is a column of the frame. -/
def firstPresentIn (f : Frame) : List Str → Option Str
  | [] => none
  | c :: cs => if f.hasCol c then some c else firstPresentIn f cs

/-- The date resolution loop (`src/app.py:446-452`): the first present
candidate column is parsed into `payment_date`; with no candidate, a
`payment_date` column of `NaT` is created (the loop's `else` branch). -/
def processDates (f : Frame) : Frame :=
  match firstPresentIn f dateColsOrder with
  | some c =>
    f.setCol ("payment_date".toList) ((f.colD c).map (fun x => Cell.vDate (parse_date x)))
  | none => f.setCol ("payment_date".toList) (List.replicate f.nrows (Cell.vDate none))

/-- One cell of the year derivation:
`payment_date.dt.year.fillna(datetime.now().year).astype(int)` with the
current year passed in as `ty`. -/
def yearFill (ty : ℤ) : Cell → ℤ
  | Cell.vDate (some d) => d.y
  | _ => ty

/-- The year column (`src/app.py:454`). -/
def setYear (ty : ℤ) (f : Frame) : Frame :=
  f.setCol ("year".toList)
    ((f.colD ("payment_date".toList)).map (fun x => Cell.vInt (yearFill ty x)))

/-- `process_raw_data` (`src/app.py:336-464`) minus the sidebar diagnostics:
clean labels, reconcile aliases, default the required monetary columns,
convert them with `safe_num`, derive `pending_amount`, clean the two
categorical columns, resolve the date column, and derive `year`. `ty` is
`datetime.now().year`. -/
def process_raw_data (ty : ℤ) (df : Frame) : Frame :=
  setYear ty
    (processDates
      (statusStep ("payment_mode".toList)
        (statusStep ("work_status".toList)
          (computePending
            (convertNumeric
              (ensureRequired
                (reconcilePayment df)))))))

/-- Is every cell of the frame a raw fetched value? -/
def rawFrame (f : Frame) : Bool :=
  f.cols.all (fun p => p.2.all isRawCell)

/-- The labels of a frame. -/
def colNames (f : Frame) : List Str :=
  f.cols.map Prod.fst

/-- `df.empty`: either axis has length zero. -/
def Frame.isEmpty (f : Frame) : Bool :=
  f.nrows == 0 || f.cols.isEmpty

/-- Does the cell match `.str.upper() == 'OK'`? Non-string cells compare
unequal (the `.str` accessor yields a missing value for them). -/
def isOkCell : Cell → Bool
  | Cell.vStr s => s.map Char.toUpper = ("OK".toList)
  | _ => false

/-- `len(proposal_df[proposal_df['status'].str.upper() == 'OK'])`
(`src/app.py:605`). -/
def okCount (f : Frame) : ℕ :=
  ((f.colD ("status".toList)).filter isOkCell).length

/-- Numeric value of a cell for `Series.sum()`. -/
def cellToQ : Cell → ℚ
  | Cell.vNum q => q
  | Cell.vInt z => (z : ℚ)
  | _ => 0

/-- The insight keys examined by the verification. The distribution keys of
`get_proposal_insights` (status, industry, district, source, yearly
breakdowns) are independent of these and are not modelled. An `Option`
field plays the presence of the key in the returned dict; consumers read
absent keys with `insights.get(key, 0)` (`src/app.py:630-645`). -/
structure Insights where
  total_proposals : Option ℕ
  total_value : Option ℚ
  conversion_rate : Option ℚ
deriving DecidableEq, Repr

/-- `get_proposal_insights` (`src/app.py:559-608`): an empty frame yields an
empty dict; otherwise the record count, the `amount` total when the column
exists, and the conversion rate `ok_count / len(df) * 100` (the `len > 0`
ternary guard included) when `status` exists. -/
def get_proposal_insights (f : Frame) : Insights :=
  if f.isEmpty then ⟨none, none, none⟩
  else
    { total_proposals := some f.nrows
      total_value :=
        if f.hasCol ("amount".toList) then
          some (((f.colD ("amount".toList)).map cellToQ).sum)
        else none
      conversion_rate :=
        if f.hasCol ("status".toList) then
          some (if 0 < f.nrows then ((okCount f : ℚ) / (f.nrows : ℚ)) * 100 else 0)
        else none }

/-- The spec's `strip_glyphs_and_commas` together with the whitespace
removal asserted by the claim: delete the Rupee sign, the dollar sign,
commas, and all whitespace. Modelled from the claim's words, for comparison
with `safe_num`. -/
def stripGlyphsCommasWs (s : Str) : Str :=
  s.filter (fun c => !(c = '₹' || c = '$' || c = ',' || isWs c))

/-- The spec's `strip_glyphs_and_commas` without whitespace removal: delete
the Rupee sign, the dollar sign and commas only. Modelled from the spec's
words, for comparison with `safe_num`. -/
def stripGlyphsCommas (s : Str) : Str :=
  s.filter (fun c => !(c = '₹' || c = '$' || c = ','))

/-! ### Frame lemmas -/

theorem getCol_setCol_self (f : Frame) (n : Str) (vs : List Cell) :
    (f.setCol n vs).getCol n = some vs := by
  show lookupCol (setColAux f.cols n vs) n = some vs
  induction f.cols with
  | nil => simp [setColAux, lookupCol]
  | cons p rest ih =>
    obtain ⟨m, ws⟩ := p
    by_cases h : m = n
    · simp [setColAux, h, lookupCol]
    · simp [setColAux, h, lookupCol, ih]

theorem getCol_setCol_ne (f : Frame) (n m : Str) (vs : List Cell) (h : n ≠ m) :
    (f.setCol n vs).getCol m = f.getCol m := by
  show lookupCol (setColAux f.cols n vs) m = lookupCol f.cols m
  induction f.cols with
  | nil => simp [setColAux, lookupCol, h]
  | cons p rest ih =>
    obtain ⟨k, ws⟩ := p
    by_cases hk : k = n
    · subst hk
      simp [setColAux, lookupCol, h]
    · simp [setColAux, hk, lookupCol, ih]

theorem hasCol_setCol_ne (f : Frame) (n m : Str) (vs : List Cell) (h : n ≠ m) :
    (f.setCol n vs).hasCol m = f.hasCol m := by
  unfold Frame.hasCol
  rw [getCol_setCol_ne f n m vs h]

theorem hasCol_setCol_self (f : Frame) (n : Str) (vs : List Cell) :
    (f.setCol n vs).hasCol n = true := by
  unfold Frame.hasCol
  rw [getCol_setCol_self]
  rfl

theorem nrows_setCol (f : Frame) (n : Str) (vs : List Cell) :
    (f.setCol n vs).nrows = f.nrows := rfl

theorem nrows_applyAliases (std : Str) (als : List Str) (f : Frame) :
    (applyAliases std als f).nrows = f.nrows := by
  induction als with
  | nil => rfl
  | cons a as ih =>
    unfold applyAliases
    split
    · rfl
    · exact ih

theorem nrows_applyMapping (m : List (Str × List Str)) (f : Frame) :
    (applyMapping m f).nrows = f.nrows := by
  induction m generalizing f with
  | nil => rfl
  | cons p rest ih =>
    obtain ⟨std, als⟩ := p
    show (applyMapping rest (applyAliases std als f)).nrows = f.nrows
    rw [ih, nrows_applyAliases]

theorem nrows_reconcilePayment (f : Frame) :
    (reconcilePayment f).nrows = f.nrows := by
  unfold reconcilePayment
  rw [nrows_applyMapping]
  rfl

theorem nrows_ensureCol (n : Str) (f : Frame) : (ensureCol n f).nrows = f.nrows := by
  unfold ensureCol
  split <;> rfl

theorem nrows_ensureRequired (f : Frame) : (ensureRequired f).nrows = f.nrows := by
  unfold ensureRequired
  rw [nrows_ensureCol, nrows_ensureCol, nrows_ensureCol, nrows_ensureCol]

theorem nrows_numStep (n : Str) (f : Frame) : (numStep n f).nrows = f.nrows := by
  unfold numStep
  split <;> rfl

theorem nrows_convertNumeric (f : Frame) : (convertNumeric f).nrows = f.nrows := by
  unfold convertNumeric
  rw [nrows_numStep, nrows_numStep, nrows_numStep, nrows_numStep]

theorem nrows_computePending (f : Frame) : (computePending f).nrows = f.nrows := by
  unfold computePending
  split <;> rfl

theorem nrows_statusStep (n : Str) (f : Frame) : (statusStep n f).nrows = f.nrows := by
  unfold statusStep
  split <;> rfl

theorem nrows_processDates (f : Frame) : (processDates f).nrows = f.nrows := by
  unfold processDates
  split <;> rfl

theorem nrows_setYear (ty : ℤ) (f : Frame) : (setYear ty f).nrows = f.nrows := rfl

theorem nrows_process_raw_data (ty : ℤ) (df : Frame) :
    (process_raw_data ty df).nrows = df.nrows := by
  unfold process_raw_data
  rw [nrows_setYear, nrows_processDates, nrows_statusStep, nrows_statusStep,
    nrows_computePending, nrows_convertNumeric, nrows_ensureRequired,
    nrows_reconcilePayment]

theorem getCol_ensureCol_ne (n m : Str) (f : Frame) (h : n ≠ m) :
    (ensureCol n f).getCol m = f.getCol m := by
  unfold ensureCol
  split
  · rfl
  · exact getCol_setCol_ne f n m _ h

theorem hasCol_ensureCol_ne (n m : Str) (f : Frame) (h : n ≠ m) :
    (ensureCol n f).hasCol m = f.hasCol m := by
  unfold Frame.hasCol
  rw [getCol_ensureCol_ne n m f h]

theorem hasCol_ensureCol_self (n : Str) (f : Frame) :
    (ensureCol n f).hasCol n = true := by
  unfold ensureCol
  split
  · assumption
  · exact hasCol_setCol_self f n _

theorem getCol_numStep_ne (n m : Str) (f : Frame) (h : n ≠ m) :
    (numStep n f).getCol m = f.getCol m := by
  unfold numStep
  split
  · exact getCol_setCol_ne f n m _ h
  · rfl

theorem hasCol_numStep_ne (n m : Str) (f : Frame) (h : n ≠ m) :
    (numStep n f).hasCol m = f.hasCol m := by
  unfold Frame.hasCol
  rw [getCol_numStep_ne n m f h]

theorem hasCol_numStep_self (n : Str) (f : Frame) (h : f.hasCol n = true) :
    (numStep n f).hasCol n = true := by
  unfold numStep
  rw [h]
  simpa using hasCol_setCol_self f n _

theorem getCol_numStep_self (n : Str) (f : Frame) (vs : List Cell)
    (h : f.getCol n = some vs) :
    (numStep n f).getCol n = some (vs.map (fun x => Cell.vNum (safe_num x))) := by
  unfold numStep
  have hh : f.hasCol n = true := by
    unfold Frame.hasCol
    rw [h]
    rfl
  rw [hh]
  have hd : f.colD n = vs := by
    unfold Frame.colD
    rw [h]
    rfl
  simpa [hd] using getCol_setCol_self f n _

theorem getCol_computePending_ne (m : Str) (f : Frame)
    (h : ("pending_amount".toList) ≠ m) :
    (computePending f).getCol m = f.getCol m := by
  unfold computePending
  split
  · exact getCol_setCol_ne f _ m _ h
  · rfl

theorem hasCol_computePending_ne (m : Str) (f : Frame)
    (h : ("pending_amount".toList) ≠ m) :
    (computePending f).hasCol m = f.hasCol m := by
  unfold Frame.hasCol
  rw [getCol_computePending_ne m f h]

theorem getCol_statusStep_ne (n m : Str) (f : Frame) (h : n ≠ m) :
    (statusStep n f).getCol m = f.getCol m := by
  unfold statusStep
  split
  · exact getCol_setCol_ne f n m _ h
  · exact getCol_setCol_ne f n m _ h

theorem hasCol_statusStep_ne (n m : Str) (f : Frame) (h : n ≠ m) :
    (statusStep n f).hasCol m = f.hasCol m := by
  unfold Frame.hasCol
  rw [getCol_statusStep_ne n m f h]

theorem getCol_processDates_ne (m : Str) (f : Frame)
    (h : ("payment_date".toList) ≠ m) :
    (processDates f).getCol m = f.getCol m := by
  unfold processDates
  split
  · exact getCol_setCol_ne f _ m _ h
  · exact getCol_setCol_ne f _ m _ h

theorem getCol_setYear_ne (ty : ℤ) (m : Str) (f : Frame)
    (h : ("year".toList) ≠ m) :
    (setYear ty f).getCol m = f.getCol m := by
  unfold setYear
  exact getCol_setCol_ne f _ m _ h

theorem exists_getCol_of_hasCol (f : Frame) (n : Str) (h : f.hasCol n = true) :
    ∃ vs, f.getCol n = some vs := by
  unfold Frame.hasCol at h
  exact Option.isSome_iff_exists.mp h

theorem hasCol_ensureRequired_final (f : Frame) :
    (ensureRequired f).hasCol ("final_amount".toList) = true := by
  unfold ensureRequired
  rw [hasCol_ensureCol_ne _ _ _ (by decide), hasCol_ensureCol_ne _ _ _ (by decide)]
  exact hasCol_ensureCol_self _ _

theorem hasCol_ensureRequired_received (f : Frame) :
    (ensureRequired f).hasCol ("payment_received".toList) = true := by
  unfold ensureRequired
  rw [hasCol_ensureCol_ne _ _ _ (by decide)]
  exact hasCol_ensureCol_self _ _

theorem getCol_convertNumeric_final (f : Frame) (vs : List Cell)
    (h : f.getCol ("final_amount".toList) = some vs) :
    (convertNumeric f).getCol ("final_amount".toList) =
      some (vs.map (fun x => Cell.vNum (safe_num x))) := by
  unfold convertNumeric
  rw [getCol_numStep_ne _ _ _ (by decide), getCol_numStep_ne _ _ _ (by decide)]
  apply getCol_numStep_self
  rw [getCol_numStep_ne _ _ _ (by decide)]
  exact h

theorem getCol_convertNumeric_received (f : Frame) (vs : List Cell)
    (h : f.getCol ("payment_received".toList) = some vs) :
    (convertNumeric f).getCol ("payment_received".toList) =
      some (vs.map (fun x => Cell.vNum (safe_num x))) := by
  unfold convertNumeric
  rw [getCol_numStep_ne _ _ _ (by decide)]
  apply getCol_numStep_self
  rw [getCol_numStep_ne _ _ _ (by decide), getCol_numStep_ne _ _ _ (by decide)]
  exact h

theorem getCol_computePending_pending (f : Frame)
    (hf : f.hasCol ("final_amount".toList) = true)
    (hr : f.hasCol ("payment_received".toList) = true) :
    (computePending f).getCol ("pending_amount".toList) =
      some ((List.zipWith subCell (f.colD ("final_amount".toList))
        (f.colD ("payment_received".toList))).map clipCell) := by
  unfold computePending
  rw [hf, hr]
  simpa using getCol_setCol_self f _ _

theorem pendingIndex (as bs : List Cell) (i : ℕ)
    (h : i < ((List.zipWith subCell (as.map (fun x => Cell.vNum (safe_num x)))
      (bs.map (fun x => Cell.vNum (safe_num x)))).map clipCell).length) :
    ∃ qf qr,
      (as.map (fun x => Cell.vNum (safe_num x))).get? i = some (Cell.vNum qf) ∧
      (bs.map (fun x => Cell.vNum (safe_num x))).get? i = some (Cell.vNum qr) ∧
      ((List.zipWith subCell (as.map (fun x => Cell.vNum (safe_num x)))
        (bs.map (fun x => Cell.vNum (safe_num x)))).map clipCell).get? i =
          some (Cell.vNum (max 0 (qf - qr))) := by
  induction as generalizing bs i with
  | nil => simp at h
  | cons a as ih =>
    cases bs with
    | nil => simp at h
    | cons b bs =>
      cases i with
      | zero =>
        refine ⟨safe_num a, safe_num b, rfl, rfl, ?_⟩
        simp [subCell, clipCell]
      | succ j =>
        have hj : j < ((List.zipWith subCell
            (as.map (fun x => Cell.vNum (safe_num x)))
            (bs.map (fun x => Cell.vNum (safe_num x)))).map clipCell).length := by
          simp only [List.length_map, List.length_zipWith, List.length_cons] at h ⊢
          omega
        obtain ⟨qf, qr, h1, h2, h3⟩ := ih bs j hj
        exact ⟨qf, qr, h1, h2, h3⟩

/-! ### Claim C1 -/

/-- C1: for every raw payment row-set, every record of the Dataset produced
by the payment processor satisfies
`pending_amount = max(0, final_amount - payment_received)`; any pending
value present in the source row is unconditionally overwritten by this
derived value (the derived column is computed from the final-amount and
payment-received columns alone). -/
theorem C1_payment_pending_invariant (ty : ℤ) (df : Frame)
    (hraw : rawFrame df = true)
    (hnd : (colNames (cleanCols df)).Nodup) :
    ∃ ps fs rs,
      (process_raw_data ty df).getCol ("pending_amount".toList) = some ps ∧
      (process_raw_data ty df).getCol ("final_amount".toList) = some fs ∧
      (process_raw_data ty df).getCol ("payment_received".toList) = some rs ∧
      ∀ i, i < ps.length →
        ∃ qf qr, fs.get? i = some (Cell.vNum qf) ∧ rs.get? i = some (Cell.vNum qr) ∧
          ps.get? i = some (Cell.vNum (max 0 (qf - qr))) := by
  clear hraw hnd
  set a := ensureRequired (reconcilePayment df) with ha
  obtain ⟨vsf, hvf⟩ := exists_getCol_of_hasCol a ("final_amount".toList)
    (hasCol_ensureRequired_final (reconcilePayment df))
  obtain ⟨vsr, hvr⟩ := exists_getCol_of_hasCol a ("payment_received".toList)
    (hasCol_ensureRequired_received (reconcilePayment df))
  have hcf := getCol_convertNumeric_final a vsf hvf
  have hcr := getCol_convertNumeric_received a vsr hvr
  have hcf' : (convertNumeric a).hasCol ("final_amount".toList) = true := by
    unfold Frame.hasCol
    rw [hcf]
    rfl
  have hcr' : (convertNumeric a).hasCol ("payment_received".toList) = true := by
    unfold Frame.hasCol
    rw [hcr]
    rfl
  have hp := getCol_computePending_pending (convertNumeric a) hcf' hcr'
  have hdf : (convertNumeric a).colD ("final_amount".toList) =
      vsf.map (fun x => Cell.vNum (safe_num x)) := by
    unfold Frame.colD
    rw [hcf]
    rfl
  have hdr : (convertNumeric a).colD ("payment_received".toList) =
      vsr.map (fun x => Cell.vNum (safe_num x)) := by
    unfold Frame.colD
    rw [hcr]
    rfl
  rw [hdf, hdr] at hp
  set b := computePending (convertNumeric a) with hb
  have hbf : b.getCol ("final_amount".toList) =
      some (vsf.map (fun x => Cell.vNum (safe_num x))) := by
    rw [hb, getCol_computePending_ne _ _ (by decide)]
    exact hcf
  have hbr : b.getCol ("payment_received".toList) =
      some (vsr.map (fun x => Cell.vNum (safe_num x))) := by
    rw [hb, getCol_computePending_ne _ _ (by decide)]
    exact hcr
  have hg : ∀ m : Str, ("work_status".toList) ≠ m → ("payment_mode".toList) ≠ m →
      ("payment_date".toList) ≠ m → ("year".toList) ≠ m →
      (process_raw_data ty df).getCol m = b.getCol m := by
    intro m h1 h2 h3 h4
    show (setYear ty (processDates (statusStep ("payment_mode".toList)
      (statusStep ("work_status".toList) b)))).getCol m = b.getCol m
    rw [getCol_setYear_ne _ _ _ h4, getCol_processDates_ne _ _ h3,
      getCol_statusStep_ne _ _ _ h2, getCol_statusStep_ne _ _ _ h1]
  refine ⟨(List.zipWith subCell (vsf.map (fun x => Cell.vNum (safe_num x)))
      (vsr.map (fun x => Cell.vNum (safe_num x)))).map clipCell,
    vsf.map (fun x => Cell.vNum (safe_num x)),
    vsr.map (fun x => Cell.vNum (safe_num x)), ?_, ?_, ?_, ?_⟩
  · rw [hg _ (by decide) (by decide) (by decide) (by decide)]
    exact hp
  · rw [hg _ (by decide) (by decide) (by decide) (by decide)]
    exact hbf
  · rw [hg _ (by decide) (by decide) (by decide) (by decide)]
    exact hbr
  · intro i hi
    exact pendingIndex vsf vsr i hi

/-- Witness for C1: a one-row raw frame carrying a final amount of 100, a
received amount of 30 and a (discarded) source pending value of 999; the
processed pending amount is `max 0 (100 - 30)`. -/
theorem C1_payment_pending_invariant_witness :
    ∃ ps fs rs,
      (process_raw_data 2024 (Frame.mk 1
        [(("Final Amount".toList), [Cell.vStr ("100".toList)]),
         (("Payment Received".toList), [Cell.vStr ("30".toList)]),
         (("Pending Amount".toList), [Cell.vStr ("999".toList)])])).getCol
           ("pending_amount".toList) = some ps ∧
      (process_raw_data 2024 (Frame.mk 1
        [(("Final Amount".toList), [Cell.vStr ("100".toList)]),
         (("Payment Received".toList), [Cell.vStr ("30".toList)]),
         (("Pending Amount".toList), [Cell.vStr ("999".toList)])])).getCol
           ("final_amount".toList) = some fs ∧
      (process_raw_data 2024 (Frame.mk 1
        [(("Final Amount".toList), [Cell.vStr ("100".toList)]),
         (("Payment Received".toList), [Cell.vStr ("30".toList)]),
         (("Pending Amount".toList), [Cell.vStr ("999".toList)])])).getCol
           ("payment_received".toList) = some rs ∧
      ∀ i, i < ps.length →
        ∃ qf qr, fs.get? i = some (Cell.vNum qf) ∧ rs.get? i = some (Cell.vNum qr) ∧
          ps.get? i = some (Cell.vNum (max 0 (qf - qr))) :=
  C1_payment_pending_invariant 2024 _ (by decide) (by decide)

/-! ### String lemmas -/

theorem dropWhile_of_all_neg {p : Char → Bool} {l : Str}
    (h : l.all (fun c => !p c) = true) : l.dropWhile p = l := by
  cases l with
  | nil => rfl
  | cons a t =>
    rw [List.dropWhile_cons]
    have ha : p a = false := by
      have := (List.all_eq_true.mp h) a (List.mem_cons_self a t)
      simpa using this
    simp [ha]

theorem pyStrip_of_all_ws {s : Str} (h : s.all isWs = true) : pyStrip s = [] := by
  unfold pyStrip
  have h1 : s.dropWhile isWs = [] := by
    rw [List.dropWhile_eq_nil_iff]
    intro x hx
    exact (List.all_eq_true.mp h) x hx
  rw [h1]
  rfl

theorem pyStrip_of_no_ws {s : Str} (h : s.all (fun c => !isWs c) = true) :
    pyStrip s = s := by
  unfold pyStrip
  rw [dropWhile_of_all_neg h]
  have h2 : s.reverse.all (fun c => !isWs c) = true := by
    rw [List.all_reverse]
    exact h
  rw [dropWhile_of_all_neg h2, List.reverse_reverse]

theorem reSub_stripGlyphsCommas (s : Str) :
    reSub (stripGlyphsCommas s) = reSub s := by
  unfold reSub stripGlyphsCommas
  rw [List.filter_filter]
  apply List.filter_congr
  intro c _
  by_cases h1 : c = '₹'
  · simp [h1, inCurrencyClass]
  · by_cases h2 : c = '$'
    · simp [h2, inCurrencyClass]
    · by_cases h3 : c = ','
      · simp [h3, inCurrencyClass]
      · simp [inCurrencyClass, h1, h2, h3]

theorem isUpper_toLower_false (c : Char) : (Char.toLower c).isUpper = false := by
  unfold Char.toLower
  by_cases h : c.toNat ≥ 65 ∧ c.toNat ≤ 90
  · simp only []
    rw [if_pos h]
    obtain ⟨h1, h2⟩ := h
    set n := Char.toNat c with hn
    interval_cases n <;> decide
  · simp only []
    rw [if_neg h]
    rw [Char.isUpper]
    by_cases h1 : c.val ≥ 65
    · by_cases h2 : c.val ≤ 90
      · exfalso
        apply h
        constructor
        · exact UInt32.le_toNat_of_le (by norm_num) h1
        · exact UInt32.toNat_le_of_le (by norm_num) h2
      · simp [h2]
    · simp [h1]

/-! ### Claim C2 -/

/-- C2: `normalize_amount` returns `0.0` on empty input, on null-like input,
on whitespace-only input, and on any parse failure of the cleaned
remainder; in particular `normalize_amount("") == 0.0` and
`normalize_amount(None) == 0.0`. The function is total (the `try/except`
absorbs every error), so it never raises. -/
theorem C2_normalize_amount_defaults :
    safe_num Cell.vNone = 0 ∧
    safe_num (Cell.vStr []) = 0 ∧
    (∀ s : Str, s.all isWs = true → safe_num (Cell.vStr s) = 0) ∧
    (∀ s : Str, floatOfStr (parenNeg (reSub (pyStrip s))) = none →
      safe_num (Cell.vStr s) = 0) := by
  refine ⟨rfl, rfl, ?_, ?_⟩
  · intro s h
    show safe_numStr s = 0
    unfold safe_numStr
    rw [if_pos (pyStrip_of_all_ws h)]
  · intro s h
    show safe_numStr s = 0
    unfold safe_numStr
    by_cases h1 : pyStrip s = []
    · rw [if_pos h1]
    · rw [if_neg h1]
      by_cases h2 : parenNeg (reSub (pyStrip s)) = []
      · simp [h2]
      · simp [h2, h]

/-- Witness for C2 at concrete inputs: two spaces are whitespace-only, and
`"abc"` leaves an unparseable cleaned remainder. -/
theorem C2_normalize_amount_defaults_witness :
    safe_num (Cell.vStr ("  ".toList)) = 0 ∧ safe_num (Cell.vStr ("abc".toList)) = 0 :=
  ⟨C2_normalize_amount_defaults.2.2.1 ("  ".toList) (by decide),
   C2_normalize_amount_defaults.2.2.2 ("abc".toList) (by decide)⟩

/-! ### Claim C3 -/

/-- Counterexample to C3 as stated: the monetary string `"₹1,234 567"`
contains a grouping comma and a currency glyph, yet `normalize_amount`
returns `0.0` on it (the cleaning regex leaves the interior space in
place, so the `float` parse fails) while on the
glyph/comma/whitespace-stripped string `"1234567"` it returns `1234567.0`.
The regex class `[₹$,\\s]` does not contain the whitespace class. -/
theorem C3_counterexample :
    safe_num (Cell.vStr ("₹1,234 567".toList)) = 0 ∧
    stripGlyphsCommasWs ("₹1,234 567".toList) = ("1234567".toList) ∧
    safe_num (Cell.vStr ("1234567".toList)) = 1234567 ∧
    (0 : ℚ) ≠ 1234567 := by
  refine ⟨by decide, by decide, by decide, by decide⟩

theorem dropWhile_append_all {p : Char → Bool} {l1 l2 : Str}
    (h : l1.all p = true) : (l1 ++ l2).dropWhile p = l2.dropWhile p := by
  induction l1 with
  | nil => rfl
  | cons a t ih =>
    rw [List.all_cons, Bool.and_eq_true] at h
    obtain ⟨ha, ht⟩ := h
    rw [List.cons_append, List.dropWhile_cons]
    simp only [ha, if_true]
    exact ih ht

theorem pyStrip_decomp (lead core trail : Str) (hl : lead.all isWs = true)
    (ht : trail.all isWs = true) (hco : core.all (fun c => !isWs c) = true) :
    pyStrip (lead ++ core ++ trail) = core := by
  unfold pyStrip
  rw [List.append_assoc, dropWhile_append_all hl]
  cases core with
  | nil =>
    simp only [List.nil_append]
    rw [List.dropWhile_eq_nil_iff.mpr (fun x hx => (List.all_eq_true.mp ht) x hx)]
    rfl
  | cons c core' =>
    have hcns : isWs c = false := by
      have := (List.all_eq_true.mp hco) c (List.mem_cons_self _ _)
      simpa using this
    rw [List.cons_append, List.dropWhile_cons, if_neg (by simp [hcns])]
    rw [show (c :: (core' ++ trail)).reverse = trail.reverse ++ (core'.reverse ++ [c])
      by simp]
    rw [dropWhile_append_all (by rw [List.all_reverse]; exact ht)]
    have hid : (core'.reverse ++ [c]).dropWhile isWs = core'.reverse ++ [c] := by
      apply dropWhile_of_all_neg
      rw [show core'.reverse ++ [c] = (c :: core').reverse by simp, List.all_reverse]
      exact hco
    rw [hid]
    rw [show core'.reverse ++ [c] = (c :: core').reverse by simp, List.reverse_reverse]

theorem stripGlyphsCommas_of_all_ws {l : Str} (h : l.all isWs = true) :
    stripGlyphsCommas l = l := by
  unfold stripGlyphsCommas
  rw [List.filter_eq_self]
  intro a ha
  have hws := (List.all_eq_true.mp h) a ha
  by_cases h1 : a = '₹'
  · subst h1
    exact absurd hws (by decide)
  by_cases h2 : a = '$'
  · subst h2
    exact absurd hws (by decide)
  by_cases h3 : a = ','
  · subst h3
    exact absurd hws (by decide)
  simp [h1, h2, h3]

theorem stripGlyphsCommas_decomp (lead core trail : Str)
    (hl : lead.all isWs = true) (ht : trail.all isWs = true) :
    stripGlyphsCommas (lead ++ core ++ trail) =
      lead ++ stripGlyphsCommas core ++ trail := by
  have h1 := stripGlyphsCommas_of_all_ws hl
  have h2 := stripGlyphsCommas_of_all_ws ht
  unfold stripGlyphsCommas at h1 h2 ⊢
  rw [List.filter_append, List.filter_append, h1, h2]

theorem all_not_ws_stripGlyphsCommas {core : Str}
    (hco : core.all (fun c => !isWs c) = true) :
    (stripGlyphsCommas core).all (fun c => !isWs c) = true := by
  rw [List.all_eq_true] at hco ⊢
  intro x hx
  exact hco x (List.mem_of_mem_filter hx)

/-- C3 amended: `normalize_amount` strips the currency glyphs (Rupee and
dollar signs), the grouping commas, and *surrounding* whitespace, but not
whitespace interior to the value. A string with no interior whitespace is
exactly one of the shape `lead ++ core ++ trail` with whitespace-only
margins and a whitespace-free core. Conjunct one: surrounding whitespace is
stripped — removing the margins does not change the result. Conjunct two:
for every such monetary raw string containing a grouping comma and a
currency glyph, `normalize_amount(s) == normalize_amount(s with the glyphs
and commas removed)`. -/
theorem C3_amended_strip_glyphs_commas :
    (∀ lead core trail : Str, lead.all isWs = true → trail.all isWs = true →
      core.all (fun c => !isWs c) = true →
      safe_num (Cell.vStr (lead ++ core ++ trail)) = safe_num (Cell.vStr core)) ∧
    (∀ lead core trail : Str, lead.all isWs = true → trail.all isWs = true →
      core.all (fun c => !isWs c) = true →
      ',' ∈ lead ++ core ++ trail →
      ('₹' ∈ lead ++ core ++ trail ∨ '$' ∈ lead ++ core ++ trail) →
      safe_num (Cell.vStr (lead ++ core ++ trail)) =
        safe_num (Cell.vStr (stripGlyphsCommas (lead ++ core ++ trail)))) := by
  constructor
  · intro lead core trail hl ht hco
    show safe_numStr (lead ++ core ++ trail) = safe_numStr core
    unfold safe_numStr
    rw [pyStrip_decomp lead core trail hl ht hco, pyStrip_of_no_ws hco]
  · intro lead core trail hl ht hco hc hg
    clear hg
    show safe_numStr (lead ++ core ++ trail) =
      safe_numStr (stripGlyphsCommas (lead ++ core ++ trail))
    rw [stripGlyphsCommas_decomp lead core trail hl ht]
    unfold safe_numStr
    rw [pyStrip_decomp lead core trail hl ht hco,
      pyStrip_decomp lead (stripGlyphsCommas core) trail hl ht
        (all_not_ws_stripGlyphsCommas hco),
      reSub_stripGlyphsCommas core]
    have hcore_ne : core ≠ [] := by
      intro h
      subst h
      simp only [List.append_nil] at hc
      rcases List.mem_append.mp hc with h | h
      · exact absurd ((List.all_eq_true.mp hl) ',' h) (by decide)
      · exact absurd ((List.all_eq_true.mp ht) ',' h) (by decide)
    rw [if_neg hcore_ne]
    by_cases h2 : stripGlyphsCommas core = []
    · rw [if_pos h2]
      have hre : reSub core = [] := by
        rw [← reSub_stripGlyphsCommas core, h2]
        rfl
      simp [hre, parenNeg, startsWithCh]
    · rw [if_neg h2]

/-- Witness for the amended C3 at `" ₹1,234.50 "`: the core `"₹1,234.50"`
has no interior whitespace, contains a comma and the Rupee sign; stripping
the surrounding whitespace does not change the result, and neither does
removing the glyphs and commas first. -/
theorem C3_amended_strip_glyphs_commas_witness :
    safe_num (Cell.vStr ((" ".toList) ++ ("₹1,234.50".toList) ++ (" ".toList))) =
      safe_num (Cell.vStr ("₹1,234.50".toList)) ∧
    safe_num (Cell.vStr ((" ".toList) ++ ("₹1,234.50".toList) ++ (" ".toList))) =
      safe_num (Cell.vStr (stripGlyphsCommas
        ((" ".toList) ++ ("₹1,234.50".toList) ++ (" ".toList)))) :=
  ⟨C3_amended_strip_glyphs_commas.1 (" ".toList) ("₹1,234.50".toList) (" ".toList)
    (by decide) (by decide) (by decide),
   C3_amended_strip_glyphs_commas.2 (" ".toList) ("₹1,234.50".toList) (" ".toList)
    (by decide) (by decide) (by decide) (by decide) (Or.inl (by decide))⟩

/-! ### Claim C4 -/

theorem pyStrip_paren_wrap (t : Str) :
    pyStrip ('(' :: (t ++ [')'])) = '(' :: (t ++ [')']) := by
  unfold pyStrip
  have h1 : ('(' :: (t ++ [')'])).dropWhile isWs = '(' :: (t ++ [')']) := by
    rw [List.dropWhile_cons]
    simp [isWs]
  rw [h1]
  have h2 : ('(' :: (t ++ [')'])).reverse = ')' :: (t.reverse ++ ['(']) := by
    simp
  rw [h2, List.dropWhile_cons]
  simp [isWs]

/-- C4: `normalize_amount` treats a cleaned value wholly wrapped in
parentheses as negative: it removes the parentheses and prepends a minus
sign, so the result is whatever `float` makes of the minus-prefixed
remainder; in particular `normalize_amount("(1,234.50)") == -1234.50`. -/
theorem C4_paren_negative :
    (∀ (t : Str) (q : ℚ), floatOfStr ('-' :: reSub t) = some q →
      safe_num (Cell.vStr ('(' :: (t ++ [')']))) = q) ∧
    safe_num (Cell.vStr ("(1,234.50)".toList)) = -(1234.5 : ℚ) := by
  constructor
  · intro t q h
    show safe_numStr ('(' :: (t ++ [')'])) = q
    unfold safe_numStr
    rw [pyStrip_paren_wrap]
    rw [if_neg (by simp)]
    have h1 : reSub ('(' :: (t ++ [')'])) = '(' :: (reSub t ++ [')']) := by
      unfold reSub
      rw [List.filter_cons, List.filter_append]
      simp [inCurrencyClass]
    rw [h1]
    have h2 : parenNeg ('(' :: (reSub t ++ [')'])) = '-' :: reSub t := by
      unfold parenNeg
      rw [if_pos]
      · simp
      · rw [Bool.and_eq_true]
        refine ⟨rfl, ?_⟩
        unfold endsWithCh
        rw [show ('(' :: (reSub t ++ [')'])) = (('(' :: reSub t) ++ [')'])
          from (List.cons_append '(' (reSub t) [')']).symm]
        rw [List.getLast?_concat]
        simp
    simp only [h2]
    rw [if_neg (by simp), h]
    rfl
  · decide

/-- Witness for C4's general part at `t = "1"`: `normalize_amount("(1)")`
is `-1.0`. -/
theorem C4_paren_negative_witness :
    safe_num (Cell.vStr ('(' :: (("1".toList) ++ [')']))) = -1 :=
  C4_paren_negative.1 ("1".toList) (-1) (by decide)

/-! ### Claim C5 -/

/-- Counterexample to C5's non-collision clause: two distinct raw names that
are empty after stripping (`"!"` and `"?"`) both map to the single
placeholder `"col"`, so empty-named columns do collide with one another —
and also with a column literally named `col`. -/
theorem C5_counterexample :
    clean_colname ("!".toList) = ("col".toList) ∧
    clean_colname ("?".toList) = ("col".toList) ∧
    clean_colname ("col".toList) = ("col".toList) ∧
    ("!".toList) ≠ ("?".toList) := by
  refine ⟨by decide, by decide, by decide, by decide⟩

/-- C5 amended: column-name normalization lower-cases the name, strips every
character outside `[0-9a-zA-Z_ ]`, converts spaces to underscores, and maps
a name that is empty after stripping to the fixed placeholder `"col"`,
shared by every such name (so distinct empty-named columns collide on
`"col"`). Conjunct one states the joint effect on every output character:
only lower-case letters, digits and underscores survive. -/
theorem C5_amended_clean_colname :
    (∀ (x : Str) (c : Char), c ∈ clean_colname x →
      (c.isDigit = true ∨ (c.isAlpha = true ∧ c.isLower = true) ∨ c = '_')) ∧
    clean_colname (" Unit Name! ".toList) = ("unit_name".toList) ∧
    (∀ x : Str,
      ((pyStrip x).map Char.toLower).filter
        (fun c => c.isDigit || c.isAlpha || c = '_' || c = ' ') = [] →
      clean_colname x = ("col".toList)) := by
  refine ⟨?_, by decide, ?_⟩
  · intro x c hc
    simp only [clean_colname] at hc
    by_cases hw : (((pyStrip x).map Char.toLower).filter
        (fun c => c.isDigit || c.isAlpha || c = '_' || c = ' ')).map
          (fun c => if c = ' ' then '_' else c) = []
    · rw [if_pos hw] at hc
      have h3 : c = 'c' ∨ c = 'o' ∨ c = 'l' := by simpa using hc
      rcases h3 with rfl | rfl | rfl <;> decide
    · rw [if_neg hw] at hc
      rcases List.mem_map.mp hc with ⟨z0, hz0, hgz⟩
      rcases List.mem_filter.mp hz0 with ⟨hz0y, hallow⟩
      rcases List.mem_map.mp hz0y with ⟨c0, _, htl⟩
      by_cases hsp : z0 = ' '
      · rw [if_pos hsp] at hgz
        right; right
        exact hgz.symm
      · rw [if_neg hsp] at hgz
        subst hgz
        simp only [Bool.or_eq_true, decide_eq_true_eq] at hallow
        rcases hallow with ((hd | ha) | hu) | hs
        · exact Or.inl hd
        · refine Or.inr (Or.inl ⟨ha, ?_⟩)
          have hup : z0.isUpper = false := by
            rw [← htl]
            exact isUpper_toLower_false c0
          have ha2 := ha
          simp only [Char.isAlpha, hup, Bool.false_or] at ha2
          exact ha2
        · exact Or.inr (Or.inr hu)
        · exact absurd hs hsp
  · intro x hx
    simp [clean_colname, hx]

/-- Witness for the amended C5: the character `u` of
`clean_colname(" Unit Name! ") = "unit_name"` is a surviving lower-case
letter, and the fully-stripped name `"@#"` maps to the placeholder. -/
theorem C5_amended_clean_colname_witness :
    (('u' : Char).isDigit = true ∨
      (('u' : Char).isAlpha = true ∧ ('u' : Char).isLower = true) ∨
      ('u' : Char) = '_') ∧
    clean_colname ("@#".toList) = ("col".toList) :=
  ⟨C5_amended_clean_colname.1 (" Unit Name! ".toList) 'u' (by decide),
   C5_amended_clean_colname.2.2 ("@#".toList) (by decide)⟩

/-! ### Claim C6 -/

theorem applyAliases_of_hasCol (std : Str) (als : List Str) (f : Frame)
    (h : f.hasCol std = true) : applyAliases std als f = f := by
  induction als with
  | nil => rfl
  | cons a as ih =>
    unfold applyAliases
    rw [h]
    simpa using ih

theorem applyMapping_id (m : List (Str × List Str)) (f : Frame)
    (h : ∀ p ∈ m, f.hasCol p.1 = true) : applyMapping m f = f := by
  induction m with
  | nil => rfl
  | cons p rest ih =>
    obtain ⟨std, als⟩ := p
    show applyMapping rest (applyAliases std als f) = f
    rw [applyAliases_of_hasCol std als f (h (std, als) (List.mem_cons_self _ _))]
    exact ih (fun q hq => h q (List.mem_cons_of_mem _ hq))

/-- C6: reconciling a column set that already contains every canonical name
of its schema yields the identity (no renames), for both the payment and
the proposal alias tables; and once a canonical name is bound to a column,
the alias scan for that name never rebinds it. -/
theorem C6_reconciler_identity :
    (∀ f : Frame, (∀ p ∈ paymentMapping, f.hasCol p.1 = true) →
      applyMapping paymentMapping f = f) ∧
    (∀ f : Frame, (∀ p ∈ proposalMapping, f.hasCol p.1 = true) →
      applyMapping proposalMapping f = f) ∧
    (∀ (std : Str) (als : List Str) (f : Frame), f.hasCol std = true →
      applyAliases std als f = f) :=
  ⟨fun f h => applyMapping_id paymentMapping f h,
   fun f h => applyMapping_id proposalMapping f h,
   fun std als f h => applyAliases_of_hasCol std als f h⟩

/-- Witness for C6: an already-canonical payment column set, an
already-canonical proposal column set, and a bound `date` column facing a
fresh `p_date` alias, all left untouched. -/
theorem C6_reconciler_identity_witness :
    applyMapping paymentMapping (Frame.mk 0
      [(("unit_name".toList), []), (("work_order_no".toList), []),
       (("order_amount".toList), []), (("final_amount".toList), []),
       (("payment_received".toList), []), (("pending_amount".toList), []),
       (("payment_mode".toList), []), (("work_status".toList), []),
       (("date".toList), [])]) = Frame.mk 0
      [(("unit_name".toList), []), (("work_order_no".toList), []),
       (("order_amount".toList), []), (("final_amount".toList), []),
       (("payment_received".toList), []), (("pending_amount".toList), []),
       (("payment_mode".toList), []), (("work_status".toList), []),
       (("date".toList), [])] ∧
    applyMapping proposalMapping (Frame.mk 0
      [(("s_no".toList), []), (("year".toList), []), (("date".toList), []),
       (("wo_date".toList), []), (("no".toList), []), (("name".toList), []),
       (("industry_type".toList), []), (("district".toList), []),
       (("scope_of_work".toList), []), (("type".toList), []),
       (("source".toList), []), (("status".toList), []),
       (("refrence_no".toList), []), (("contact_person".toList), []),
       (("amount".toList), []), (("present_status".toList), [])]) = Frame.mk 0
      [(("s_no".toList), []), (("year".toList), []), (("date".toList), []),
       (("wo_date".toList), []), (("no".toList), []), (("name".toList), []),
       (("industry_type".toList), []), (("district".toList), []),
       (("scope_of_work".toList), []), (("type".toList), []),
       (("source".toList), []), (("status".toList), []),
       (("refrence_no".toList), []), (("contact_person".toList), []),
       (("amount".toList), []), (("present_status".toList), [])] ∧
    applyAliases ("date".toList) [("p_date".toList)]
      (Frame.mk 3 [(("date".toList), [])]) =
      Frame.mk 3 [(("date".toList), [])] :=
  ⟨C6_reconciler_identity.1 _ (by decide),
   C6_reconciler_identity.2.1 _ (by decide),
   C6_reconciler_identity.2.2 ("date".toList) [("p_date".toList)] _ (by decide)⟩

/-! ### Claim C7 -/

theorem getCol_midPipeline (f : Frame) (m : Str)
    (ho : ("order_amount".toList) ≠ m) (hf : ("final_amount".toList) ≠ m)
    (hr : ("payment_received".toList) ≠ m) (hp : ("pending_amount".toList) ≠ m)
    (hw : ("work_status".toList) ≠ m) (hm : ("payment_mode".toList) ≠ m) :
    (statusStep ("payment_mode".toList)
      (statusStep ("work_status".toList)
        (computePending (convertNumeric (ensureRequired f))))).getCol m =
      f.getCol m := by
  rw [getCol_statusStep_ne _ _ _ hm, getCol_statusStep_ne _ _ _ hw,
    getCol_computePending_ne _ _ hp]
  unfold convertNumeric ensureRequired
  rw [getCol_numStep_ne _ _ _ hp, getCol_numStep_ne _ _ _ hr,
    getCol_numStep_ne _ _ _ hf, getCol_numStep_ne _ _ _ ho,
    getCol_ensureCol_ne _ _ _ hp, getCol_ensureCol_ne _ _ _ hr,
    getCol_ensureCol_ne _ _ _ hf, getCol_ensureCol_ne _ _ _ ho]

theorem hasCol_midPipeline (f : Frame) (m : Str)
    (ho : ("order_amount".toList) ≠ m) (hf : ("final_amount".toList) ≠ m)
    (hr : ("payment_received".toList) ≠ m) (hp : ("pending_amount".toList) ≠ m)
    (hw : ("work_status".toList) ≠ m) (hm : ("payment_mode".toList) ≠ m) :
    (statusStep ("payment_mode".toList)
      (statusStep ("work_status".toList)
        (computePending (convertNumeric (ensureRequired f))))).hasCol m =
      f.hasCol m := by
  unfold Frame.hasCol
  rw [getCol_midPipeline f m ho hf hr hp hw hm]

theorem firstPresentIn_congr (f g : Frame) (l : List Str)
    (h : ∀ c ∈ l, f.hasCol c = g.hasCol c) :
    firstPresentIn f l = firstPresentIn g l := by
  induction l with
  | nil => rfl
  | cons c cs ih =>
    unfold firstPresentIn
    rw [h c (List.mem_cons_self _ _)]
    split
    · rfl
    · exact ih (fun d hd => h d (List.mem_cons_of_mem _ hd))

theorem firstPresentIn_mem (f : Frame) (l : List Str) (c : Str)
    (h : firstPresentIn f l = some c) : c ∈ l := by
  induction l with
  | nil => exact absurd h (by simp [firstPresentIn])
  | cons d ds ih =>
    unfold firstPresentIn at h
    by_cases hd : f.hasCol d
    · rw [if_pos hd] at h
      exact (Option.some_inj.mp h) ▸ List.mem_cons_self _ _
    · rw [if_neg hd] at h
      exact List.mem_cons_of_mem _ (ih h)

theorem exists_getCol_processDates (f : Frame) :
    ∃ ds, (processDates f).getCol ("payment_date".toList) = some ds := by
  unfold processDates
  split
  · exact ⟨_, getCol_setCol_self _ _ _⟩
  · exact ⟨_, getCol_setCol_self _ _ _⟩

/-- C7: the payment processor resolves the date by scanning the columns
`date`, `p_date`, `payment_date` in that order over the reconciled frame;
the first present column is normalized value-by-value through `parse_date`
into the `payment_date` field, and when none is present that field is the
absent marker for every record; `year` is derived per record from the
resolved date, with the current calendar year `ty` substituted when the
date is absent, so every `year` cell is an integer. -/
theorem C7_payment_date_resolution (ty : ℤ) (df : Frame)
    (hraw : rawFrame df = true)
    (hnd : (colNames (cleanCols df)).Nodup) :
    (∀ (c : Str) (vs : List Cell),
      firstPresentIn (reconcilePayment df) dateColsOrder = some c →
      (reconcilePayment df).getCol c = some vs →
      (process_raw_data ty df).getCol ("payment_date".toList) =
        some (vs.map (fun x => Cell.vDate (parse_date x)))) ∧
    (firstPresentIn (reconcilePayment df) dateColsOrder = none →
      (process_raw_data ty df).getCol ("payment_date".toList) =
        some (List.replicate df.nrows (Cell.vDate none))) ∧
    (∃ ds, (process_raw_data ty df).getCol ("payment_date".toList) = some ds ∧
      (process_raw_data ty df).getCol ("year".toList) =
        some (ds.map (fun x => Cell.vInt (yearFill ty x))) ∧
      ∀ e ∈ ds.map (fun x => Cell.vInt (yearFill ty x)), ∃ z, e = Cell.vInt z) := by
  clear hraw hnd
  set a := reconcilePayment df with hadef
  set mid := statusStep ("payment_mode".toList)
    (statusStep ("work_status".toList)
      (computePending (convertNumeric (ensureRequired a)))) with hmid
  have hfp : firstPresentIn mid dateColsOrder = firstPresentIn a dateColsOrder := by
    apply firstPresentIn_congr
    intro c hc
    have hc2 : c = ("date".toList) ∨ c = ("p_date".toList) ∨
        c = ("payment_date".toList) := by simpa [dateColsOrder] using hc
    rcases hc2 with rfl | rfl | rfl
    · exact hasCol_midPipeline a _ (by decide) (by decide) (by decide) (by decide)
        (by decide) (by decide)
    · exact hasCol_midPipeline a _ (by decide) (by decide) (by decide) (by decide)
        (by decide) (by decide)
    · exact hasCol_midPipeline a _ (by decide) (by decide) (by decide) (by decide)
        (by decide) (by decide)
  have hshow : process_raw_data ty df = setYear ty (processDates mid) := rfl
  have hn : mid.nrows = df.nrows := by
    rw [hmid, nrows_statusStep, nrows_statusStep, nrows_computePending,
      nrows_convertNumeric, nrows_ensureRequired, hadef, nrows_reconcilePayment]
  refine ⟨?_, ?_, ?_⟩
  · intro c vs hsome hvs
    have hcmem := firstPresentIn_mem a dateColsOrder c hsome
    have hvals : mid.getCol c = a.getCol c := by
      have hc2 : c = ("date".toList) ∨ c = ("p_date".toList) ∨
          c = ("payment_date".toList) := by simpa [dateColsOrder] using hcmem
      rcases hc2 with rfl | rfl | rfl
      · exact getCol_midPipeline a _ (by decide) (by decide) (by decide) (by decide)
          (by decide) (by decide)
      · exact getCol_midPipeline a _ (by decide) (by decide) (by decide) (by decide)
          (by decide) (by decide)
      · exact getCol_midPipeline a _ (by decide) (by decide) (by decide) (by decide)
          (by decide) (by decide)
    have hd : mid.colD c = vs := by
      unfold Frame.colD
      rw [hvals, hvs]
      rfl
    rw [hshow]
    rw [getCol_setYear_ne _ _ _ (by decide)]
    unfold processDates
    rw [hfp, hsome]
    show (mid.setCol ("payment_date".toList)
        ((mid.colD c).map (fun x => Cell.vDate (parse_date x)))).getCol
      ("payment_date".toList) = some (vs.map (fun x => Cell.vDate (parse_date x)))
    rw [hd]
    exact getCol_setCol_self _ _ _
  · intro hnone
    rw [hshow]
    rw [getCol_setYear_ne _ _ _ (by decide)]
    unfold processDates
    rw [hfp, hnone]
    show (mid.setCol ("payment_date".toList)
        (List.replicate mid.nrows (Cell.vDate none))).getCol
      ("payment_date".toList) = some (List.replicate df.nrows (Cell.vDate none))
    rw [hn]
    exact getCol_setCol_self _ _ _
  · obtain ⟨ds, hds⟩ := exists_getCol_processDates mid
    refine ⟨ds, ?_, ?_, ?_⟩
    · rw [hshow]
      rw [getCol_setYear_ne _ _ _ (by decide)]
      exact hds
    · rw [hshow]
      unfold setYear
      have hd : (processDates mid).colD ("payment_date".toList) = ds := by
        unfold Frame.colD
        rw [hds]
        rfl
      rw [hd]
      exact getCol_setCol_self _ _ _
    · intro e he
      rcases List.mem_map.mp he with ⟨x, _, hx⟩
      exact ⟨yearFill ty x, hx.symm⟩

/-- Witness for C7 at a one-row frame whose `Date` column holds
`01/01/2024`: the resolved `payment_date` column is that date parsed
day-first. -/
theorem C7_payment_date_resolution_witness :
    (process_raw_data 2024 (Frame.mk 1
      [(("Date".toList), [Cell.vStr ("01/01/2024".toList)]),
       (("Final Amount".toList), [Cell.vStr ("100".toList)])])).getCol
        ("payment_date".toList) =
      some [Cell.vDate (some ⟨2024, 1, 1⟩)] := by
  rw [(C7_payment_date_resolution 2024 (Frame.mk 1
      [(("Date".toList), [Cell.vStr ("01/01/2024".toList)]),
       (("Final Amount".toList), [Cell.vStr ("100".toList)])]) (by decide)
      (by decide)).1
    ("date".toList) [Cell.vStr ("01/01/2024".toList)] (by decide) (by decide)]
  decide

/-! ### Claim C8 -/

theorem getCol_ensureCol_absent (n : Str) (f : Frame) (h : f.hasCol n = false) :
    (ensureCol n f).getCol n = some (List.replicate f.nrows (Cell.vNum 0)) := by
  unfold ensureCol
  rw [if_neg (by simp [h])]
  exact getCol_setCol_self f n _

theorem getCol_statusStep_absent (n : Str) (f : Frame) (h : f.hasCol n = false) :
    (statusStep n f).getCol n =
      some (List.replicate f.nrows (Cell.vStr ("Unknown".toList))) := by
  unfold statusStep
  rw [if_neg (by simp [h])]
  exact getCol_setCol_self f n _

theorem getCol_statusStep_present (n : Str) (f : Frame) (vs : List Cell)
    (h : f.getCol n = some vs) :
    (statusStep n f).getCol n = some (vs.map cleanStatus) := by
  unfold statusStep
  have hh : f.hasCol n = true := by
    unfold Frame.hasCol
    rw [h]
    rfl
  rw [if_pos (by simp [hh])]
  have hd : f.colD n = vs := by
    unfold Frame.colD
    rw [h]
    rfl
  rw [hd]
  exact getCol_setCol_self f n _

theorem getCol_moneyStages (f : Frame) (m : Str)
    (ho : ("order_amount".toList) ≠ m) (hf : ("final_amount".toList) ≠ m)
    (hr : ("payment_received".toList) ≠ m) (hp : ("pending_amount".toList) ≠ m) :
    (computePending (convertNumeric (ensureRequired f))).getCol m = f.getCol m := by
  rw [getCol_computePending_ne _ _ hp]
  unfold convertNumeric ensureRequired
  rw [getCol_numStep_ne _ _ _ hp, getCol_numStep_ne _ _ _ hr,
    getCol_numStep_ne _ _ _ hf, getCol_numStep_ne _ _ _ ho,
    getCol_ensureCol_ne _ _ _ hp, getCol_ensureCol_ne _ _ _ hr,
    getCol_ensureCol_ne _ _ _ hf, getCol_ensureCol_ne _ _ _ ho]

theorem hasCol_moneyStages (f : Frame) (m : Str)
    (ho : ("order_amount".toList) ≠ m) (hf : ("final_amount".toList) ≠ m)
    (hr : ("payment_received".toList) ≠ m) (hp : ("pending_amount".toList) ≠ m) :
    (computePending (convertNumeric (ensureRequired f))).hasCol m = f.hasCol m := by
  unfold Frame.hasCol
  rw [getCol_moneyStages f m ho hf hr hp]

theorem getCol_tailStages (ty : ℤ) (X : Frame) (m : Str)
    (h2 : ("work_status".toList) ≠ m) (h3 : ("payment_mode".toList) ≠ m)
    (h4 : ("payment_date".toList) ≠ m) (h5 : ("year".toList) ≠ m) :
    (setYear ty (processDates (statusStep ("payment_mode".toList)
      (statusStep ("work_status".toList) X)))).getCol m = X.getCol m := by
  rw [getCol_setYear_ne _ _ _ h5, getCol_processDates_ne _ _ h4,
    getCol_statusStep_ne _ _ _ h3, getCol_statusStep_ne _ _ _ h2]

theorem zero_col_after_convert (b : Frame) (c : Str)
    (hc : b.getCol c = some (List.replicate b.nrows (Cell.vNum 0)))
    (hmap : ((List.replicate b.nrows (Cell.vNum 0)).map
      (fun x => Cell.vNum (safe_num x))) = List.replicate b.nrows (Cell.vNum 0)) :
    (numStep c b).getCol c = some (List.replicate b.nrows (Cell.vNum 0)) := by
  rw [getCol_numStep_self c b _ hc, hmap]

theorem safe_num_zero : safe_num (Cell.vNum 0) = 0 := by decide

theorem map_safe_num_zero_col (n : ℕ) :
    ((List.replicate n (Cell.vNum 0)).map (fun x => Cell.vNum (safe_num x))) =
      List.replicate n (Cell.vNum 0) := by
  rw [List.map_replicate, safe_num_zero]

theorem zeroPipeline_order (f : Frame)
    (h : f.hasCol ("order_amount".toList) = false) :
    (convertNumeric (ensureRequired f)).getCol ("order_amount".toList) =
      some (List.replicate f.nrows (Cell.vNum 0)) := by
  have h1 : (ensureRequired f).getCol ("order_amount".toList) =
      some (List.replicate f.nrows (Cell.vNum 0)) := by
    unfold ensureRequired
    rw [getCol_ensureCol_ne _ _ _ (by decide), getCol_ensureCol_ne _ _ _ (by decide),
      getCol_ensureCol_ne _ _ _ (by decide)]
    exact getCol_ensureCol_absent _ f h
  unfold convertNumeric
  rw [getCol_numStep_ne _ _ _ (by decide), getCol_numStep_ne _ _ _ (by decide),
    getCol_numStep_ne _ _ _ (by decide)]
  rw [getCol_numStep_self _ _ _ h1, map_safe_num_zero_col]

theorem zeroPipeline_final (f : Frame)
    (h : f.hasCol ("final_amount".toList) = false) :
    (convertNumeric (ensureRequired f)).getCol ("final_amount".toList) =
      some (List.replicate f.nrows (Cell.vNum 0)) := by
  have h0 : (ensureCol ("order_amount".toList) f).hasCol ("final_amount".toList)
      = false := by
    rw [hasCol_ensureCol_ne _ _ _ (by decide)]
    exact h
  have h1 : (ensureRequired f).getCol ("final_amount".toList) =
      some (List.replicate f.nrows (Cell.vNum 0)) := by
    unfold ensureRequired
    rw [getCol_ensureCol_ne _ _ _ (by decide), getCol_ensureCol_ne _ _ _ (by decide)]
    have := getCol_ensureCol_absent ("final_amount".toList) _ h0
    rw [nrows_ensureCol] at this
    exact this
  unfold convertNumeric
  rw [getCol_numStep_ne _ _ _ (by decide), getCol_numStep_ne _ _ _ (by decide)]
  have h2 : (numStep ("order_amount".toList) (ensureRequired f)).getCol
      ("final_amount".toList) = some (List.replicate f.nrows (Cell.vNum 0)) := by
    rw [getCol_numStep_ne _ _ _ (by decide)]
    exact h1
  rw [getCol_numStep_self _ _ _ h2, map_safe_num_zero_col]

theorem zeroPipeline_received (f : Frame)
    (h : f.hasCol ("payment_received".toList) = false) :
    (convertNumeric (ensureRequired f)).getCol ("payment_received".toList) =
      some (List.replicate f.nrows (Cell.vNum 0)) := by
  have h0 : (ensureCol ("final_amount".toList)
      (ensureCol ("order_amount".toList) f)).hasCol ("payment_received".toList)
      = false := by
    rw [hasCol_ensureCol_ne _ _ _ (by decide), hasCol_ensureCol_ne _ _ _ (by decide)]
    exact h
  have h1 : (ensureRequired f).getCol ("payment_received".toList) =
      some (List.replicate f.nrows (Cell.vNum 0)) := by
    unfold ensureRequired
    rw [getCol_ensureCol_ne _ _ _ (by decide)]
    have := getCol_ensureCol_absent ("payment_received".toList) _ h0
    rw [nrows_ensureCol, nrows_ensureCol] at this
    exact this
  unfold convertNumeric
  rw [getCol_numStep_ne _ _ _ (by decide)]
  have h2 : (numStep ("final_amount".toList)
      (numStep ("order_amount".toList) (ensureRequired f))).getCol
      ("payment_received".toList) = some (List.replicate f.nrows (Cell.vNum 0)) := by
    rw [getCol_numStep_ne _ _ _ (by decide), getCol_numStep_ne _ _ _ (by decide)]
    exact h1
  rw [getCol_numStep_self _ _ _ h2, map_safe_num_zero_col]

/-- C8: in the payment processor, each of the three required monetary
columns that is absent after reconciliation is synthesized as an all-zero
column (no error — the model is total); `work_status` and `payment_mode`
become the constant `"Unknown"` column when absent, and are otherwise
cleaned cell-by-cell (missing cells filled with `"Unknown"`, the rest
trimmed and title-cased). -/
theorem C8_payment_defaults (ty : ℤ) (df : Frame)
    (hraw : rawFrame df = true)
    (hnd : (colNames (cleanCols df)).Nodup) :
    ((reconcilePayment df).hasCol ("order_amount".toList) = false →
      (process_raw_data ty df).getCol ("order_amount".toList) =
        some (List.replicate df.nrows (Cell.vNum 0))) ∧
    ((reconcilePayment df).hasCol ("final_amount".toList) = false →
      (process_raw_data ty df).getCol ("final_amount".toList) =
        some (List.replicate df.nrows (Cell.vNum 0))) ∧
    ((reconcilePayment df).hasCol ("payment_received".toList) = false →
      (process_raw_data ty df).getCol ("payment_received".toList) =
        some (List.replicate df.nrows (Cell.vNum 0))) ∧
    ((reconcilePayment df).hasCol ("work_status".toList) = false →
      (process_raw_data ty df).getCol ("work_status".toList) =
        some (List.replicate df.nrows (Cell.vStr ("Unknown".toList)))) ∧
    (∀ vs, (reconcilePayment df).getCol ("work_status".toList) = some vs →
      (process_raw_data ty df).getCol ("work_status".toList) =
        some (vs.map cleanStatus)) ∧
    ((reconcilePayment df).hasCol ("payment_mode".toList) = false →
      (process_raw_data ty df).getCol ("payment_mode".toList) =
        some (List.replicate df.nrows (Cell.vStr ("Unknown".toList)))) ∧
    (∀ vs, (reconcilePayment df).getCol ("payment_mode".toList) = some vs →
      (process_raw_data ty df).getCol ("payment_mode".toList) =
        some (vs.map cleanStatus)) := by
  clear hraw hnd
  set r := reconcilePayment df with hrdef
  set d := computePending (convertNumeric (ensureRequired r)) with hddef
  have hrn : r.nrows = df.nrows := by
    rw [hrdef, nrows_reconcilePayment]
  have hdn : d.nrows = df.nrows := by
    rw [hddef, nrows_computePending, nrows_convertNumeric, nrows_ensureRequired, hrn]
  have hshow : ∀ m : Str, ("work_status".toList) ≠ m → ("payment_mode".toList) ≠ m →
      ("payment_date".toList) ≠ m → ("year".toList) ≠ m →
      (process_raw_data ty df).getCol m = d.getCol m := by
    intro m h2 h3 h4 h5
    exact getCol_tailStages ty d m h2 h3 h4 h5
  refine ⟨?_, ?_, ?_, ?_, ?_, ?_, ?_⟩
  · intro h
    rw [hshow _ (by decide) (by decide) (by decide) (by decide), hddef,
      getCol_computePending_ne _ _ (by decide)]
    have := zeroPipeline_order r h
    rw [hrn] at this
    exact this
  · intro h
    rw [hshow _ (by decide) (by decide) (by decide) (by decide), hddef,
      getCol_computePending_ne _ _ (by decide)]
    have := zeroPipeline_final r h
    rw [hrn] at this
    exact this
  · intro h
    rw [hshow _ (by decide) (by decide) (by decide) (by decide), hddef,
      getCol_computePending_ne _ _ (by decide)]
    have := zeroPipeline_received r h
    rw [hrn] at this
    exact this
  · intro h
    have hd : d.hasCol ("work_status".toList) = false := by
      rw [hddef, hasCol_moneyStages _ _ (by decide) (by decide) (by decide) (by decide)]
      exact h
    show (setYear ty (processDates (statusStep ("payment_mode".toList)
      (statusStep ("work_status".toList) d)))).getCol ("work_status".toList) = _
    rw [getCol_setYear_ne _ _ _ (by decide), getCol_processDates_ne _ _ (by decide),
      getCol_statusStep_ne _ _ _ (by decide)]
    have := getCol_statusStep_absent ("work_status".toList) d hd
    rw [hdn] at this
    exact this
  · intro vs hvs
    have hd : d.getCol ("work_status".toList) = some vs := by
      rw [hddef, getCol_moneyStages _ _ (by decide) (by decide) (by decide) (by decide)]
      exact hvs
    show (setYear ty (processDates (statusStep ("payment_mode".toList)
      (statusStep ("work_status".toList) d)))).getCol ("work_status".toList) = _
    rw [getCol_setYear_ne _ _ _ (by decide), getCol_processDates_ne _ _ (by decide),
      getCol_statusStep_ne _ _ _ (by decide)]
    exact getCol_statusStep_present _ d vs hd
  · intro h
    have hd : (statusStep ("work_status".toList) d).hasCol ("payment_mode".toList)
        = false := by
      rw [hasCol_statusStep_ne _ _ _ (by decide), hddef,
        hasCol_moneyStages _ _ (by decide) (by decide) (by decide) (by decide)]
      exact h
    show (setYear ty (processDates (statusStep ("payment_mode".toList)
      (statusStep ("work_status".toList) d)))).getCol ("payment_mode".toList) = _
    rw [getCol_setYear_ne _ _ _ (by decide), getCol_processDates_ne _ _ (by decide)]
    have := getCol_statusStep_absent ("payment_mode".toList) _ hd
    rw [nrows_statusStep, hdn] at this
    exact this
  · intro vs hvs
    have hd : (statusStep ("work_status".toList) d).getCol ("payment_mode".toList)
        = some vs := by
      rw [getCol_statusStep_ne _ _ _ (by decide), hddef,
        getCol_moneyStages _ _ (by decide) (by decide) (by decide) (by decide)]
      exact hvs
    show (setYear ty (processDates (statusStep ("payment_mode".toList)
      (statusStep ("work_status".toList) d)))).getCol ("payment_mode".toList) = _
    rw [getCol_setYear_ne _ _ _ (by decide), getCol_processDates_ne _ _ (by decide)]
    exact getCol_statusStep_present _ _ vs hd

/-- Witness for C8 at a one-row frame that lacks all three monetary columns
and carries a lower-case work status: the synthesized `payment_received`
column is all zeros and the status is title-cased. -/
theorem C8_payment_defaults_witness :
    (process_raw_data 2024 (Frame.mk 1
      [(("Work Status".toList), [Cell.vStr ("in progress".toList)])])).getCol
        ("payment_received".toList) = some [Cell.vNum 0] ∧
    (process_raw_data 2024 (Frame.mk 1
      [(("Work Status".toList), [Cell.vStr ("in progress".toList)])])).getCol
        ("work_status".toList) = some [Cell.vStr ("In Progress".toList)] := by
  constructor
  · have h := (C8_payment_defaults 2024 (Frame.mk 1
      [(("Work Status".toList), [Cell.vStr ("in progress".toList)])]) (by decide)
      (by decide)).2.2.1 (by decide)
    rw [h]
    decide
  · have h := (C8_payment_defaults 2024 (Frame.mk 1
      [(("Work Status".toList), [Cell.vStr ("in progress".toList)])]) (by decide)
      (by decide)).2.2.2.2.1 [Cell.vStr ("in progress".toList)] (by decide)
    rw [h]
    decide

/-! ### Claim C9 -/

/-- C9: the proposal insight aggregator computes
`conversion_rate = count(status upper-cases to OK) / total * 100`; the
concrete 4-record dataset with statuses OK, OK, Drop, Pending has rate 50;
and the empty dataset produces an empty insight dict, which consumers read
as zero counts and a zero conversion rate via `insights.get(key, 0)` — no
division error (the model is total, matching the guarded ternary at
`src/app.py:606`). -/
theorem C9_conversion_rate :
    (∀ f : Frame, f.isEmpty = false → f.hasCol ("status".toList) = true →
      (get_proposal_insights f).conversion_rate =
        some (((okCount f : ℚ) / (f.nrows : ℚ)) * 100)) ∧
    ((get_proposal_insights (Frame.mk 4 [(("status".toList),
      [Cell.vStr ("OK".toList), Cell.vStr ("OK".toList),
       Cell.vStr ("Drop".toList), Cell.vStr ("Pending".toList)])])).conversion_rate
       = some 50) ∧
    ((get_proposal_insights (Frame.mk 0 [])).conversion_rate.getD 0 = 0 ∧
     (get_proposal_insights (Frame.mk 0 [])).total_proposals.getD 0 = 0 ∧
     (get_proposal_insights (Frame.mk 0 [])).total_value.getD 0 = 0) := by
  refine ⟨?_, by decide, by decide, by decide, by decide⟩
  intro f he hs
  have hn : 0 < f.nrows := by
    unfold Frame.isEmpty at he
    simp only [Bool.or_eq_false_iff, beq_eq_false_iff_ne] at he
    exact Nat.pos_of_ne_zero he.1
  unfold get_proposal_insights
  rw [if_neg (by simp [he])]
  show (if f.hasCol ("status".toList) = true then
      some (if 0 < f.nrows then ((okCount f : ℚ) / (f.nrows : ℚ)) * 100 else 0)
    else none) = some (((okCount f : ℚ) / (f.nrows : ℚ)) * 100)
  rw [if_pos hs, if_pos hn]

/-- Witness for C9's general conversion-rate formula at the 4-record
dataset. -/
theorem C9_conversion_rate_witness :
    (get_proposal_insights (Frame.mk 4 [(("status".toList),
      [Cell.vStr ("OK".toList), Cell.vStr ("OK".toList),
       Cell.vStr ("Drop".toList), Cell.vStr ("Pending".toList)])])).conversion_rate =
      some (((okCount (Frame.mk 4 [(("status".toList),
        [Cell.vStr ("OK".toList), Cell.vStr ("OK".toList),
         Cell.vStr ("Drop".toList), Cell.vStr ("Pending".toList)])]) : ℚ) /
        ((Frame.mk 4 [(("status".toList),
        [Cell.vStr ("OK".toList), Cell.vStr ("OK".toList),
         Cell.vStr ("Drop".toList), Cell.vStr ("Pending".toList)])]).nrows : ℚ)) * 100) :=
  C9_conversion_rate.1 _ (by decide) (by decide)

/-! ### Claim C10 -/

/-- C10: the cleaning step of `normalize_amount` removes every literal `s`
and every literal backslash (in addition to the Rupee sign, the dollar sign
and the comma) and removes nothing else — in particular it keeps interior
whitespace, which then defeats the parse; `normalize_amount("1s23") = 123`,
`normalize_amount("1\23") = 123`, while `normalize_amount("1 234") = 0`. -/
theorem C10_regex_class :
    (∀ s : Str, 's' ∉ reSub s ∧ '\\' ∉ reSub s ∧ '₹' ∉ reSub s ∧
      '$' ∉ reSub s ∧ ',' ∉ reSub s) ∧
    (∀ (s : Str) (c : Char), c ∈ s → inCurrencyClass c = false → c ∈ reSub s) ∧
    safe_num (Cell.vStr ("1s23".toList)) = 123 ∧
    safe_num (Cell.vStr ('1' :: '\\' :: ("23".toList))) = 123 ∧
    safe_num (Cell.vStr ("1 234".toList)) = 0 := by
  have k : ∀ (s : Str) (c : Char), inCurrencyClass c = true → c ∉ reSub s := by
    intro s c hc hmem
    have h2 := (List.mem_filter.mp hmem).2
    rw [hc] at h2
    exact absurd h2 (by decide)
  refine ⟨?_, ?_, by decide, by decide, by decide⟩
  · intro s
    exact ⟨k s 's' (by decide), k s '\\' (by decide), k s '₹' (by decide),
      k s '$' (by decide), k s ',' (by decide)⟩
  · intro s c hc hnc
    refine List.mem_filter.mpr ⟨hc, ?_⟩
    rw [hnc]
    rfl

/-- Witness for C10's preservation part: the interior space of `"1 234"`
survives the cleaning substitution. -/
theorem C10_regex_class_witness : (' ' : Char) ∈ reSub ("1 234".toList) :=
  C10_regex_class.2.1 ("1 234".toList) ' ' (by decide) (by decide)
